import Mathlib

set_option maxRecDepth 16384

/- Verification of the Pyxelate pixel-art engine (src/pyxelate/pyx.py) against its
natural-language specification.  Images are embedded as lists of rows of pixels;
machine floats are modelled as rationals; the external numeric collaborators
(scikit-learn, scikit-image, scipy) are modelled at their call boundary, exactly as
the specification treats them.  Each definition is a direct translation of the
corresponding Python source. -/

namespace Pyxelate

/-- Colors as produced by the palette pipeline: integer RGB triples. -/
abbrev Color := Int × Int × Int

/- ---------------------------------------------------------------------------
GeometryPadder: Pyx._pad (src/pyxelate/pyx.py lines 240-251).

Python, padding direction (nh = nw = None):
  h1, h2 = (1 if h % pad_size > 0 else 0), (1 if h % pad_size == 1 else 0)
  w1, w2 = (1 if w % pad_size > 0 else 0), (1 if w % pad_size == 1 else 0)
  return np.pad(X, ((h1, h2), (w1, w2), (0, 0)), "edge")
Unpadding direction:
  return X[slice((1 if nh % pad_size > 0 else 0), (-1 if nh % pad_size == 1 else None)),
           slice((1 if nw % pad_size > 0 else 0), (-1 if nw % pad_size == 1 else None)), :]
--------------------------------------------------------------------------- -/

/-- Edge padding of one axis, with the counts used by Pyx._pad: one replicated
element in front when n is not divisible by t, one replicated element at the back
exactly when n mod t = 1. -/
def padSeq (t n : Nat) (front back : α) (l : List α) : List α :=
  (if n % t > 0 then [front] else []) ++ l ++ (if n % t = 1 then [back] else [])

/-- Edge padding of one image row, replicating its first and last pixel. -/
def padRowF [Inhabited α] (t w : Nat) (r : List α) : List α :=
  padSeq t w (r.headD default) (r.getLastD default) r

/-- Pyx._pad in the padding direction: numpy edge-padding of both axes, first and
last rows replicated, first and last pixel of every row replicated, with the
counts of the source. -/
def pyxPad [Inhabited α] (t : Nat) (X : List (List α)) : List (List α) :=
  padSeq t X.length
    (padRowF t (X.headD []).length (X.headD []))
    (padRowF t (X.headD []).length (X.getLastD []))
    (X.map (padRowF t (X.headD []).length))

/-- Removal of the padding of one axis, as in the unpadding branch of Pyx._pad:
a python slice whose start drops one element when n mod t is positive and whose
-1 stop drops the final element exactly when n mod t = 1. -/
def stripSeq (t n : Nat) (l : List α) : List α :=
  let l1 := l.drop (if n % t > 0 then 1 else 0)
  if n % t = 1 then l1.dropLast else l1

/-- Pyx._pad in the unpadding direction (nh, nw given). -/
def pyxUnpad (t nh nw : Nat) (Y : List (List α)) : List (List α) :=
  (stripSeq t nh Y).map (stripSeq t nw)

/-- Stripping the padding of one axis recovers the original sequence exactly. -/
theorem stripSeq_padSeq (t n : Nat) (f b : α) (L : List α) :
    stripSeq t n (padSeq t n f b L) = L := by
  unfold stripSeq padSeq
  rcases Nat.eq_zero_or_pos (n % t) with h0 | hpos
  · simp [h0]
  · rcases eq_or_ne (n % t) 1 with h1 | h1
    · simp [h1]
    · simp [hpos, h1]

/-- Row-level inverse: stripping a padded row recovers the row. -/
theorem stripSeq_padRowF [Inhabited α] (t w : Nat) (r : List α) :
    stripSeq t w (padRowF t w r) = r :=
  stripSeq_padSeq t w _ _ r

/-- C1: for every image X (of any element type, so in particular of shape
(h, w, d)) and every tile size t with 2 ≤ t, unpadding the padded image with the
original height and width recovers the original image exactly:
pyxUnpad t h w (pyxPad t X) = X. -/
theorem claim1_pad_unpad_inverse [Inhabited α] (t : Nat) (ht : 2 ≤ t)
    (X : List (List α)) :
    pyxUnpad t X.length (X.headD []).length (pyxPad t X) = X := by
  unfold pyxUnpad pyxPad
  rw [stripSeq_padSeq]
  rw [List.map_map]
  have hrow : ∀ r : List α,
      (stripSeq t (X.headD []).length ∘ padRowF t (X.headD []).length) r = r :=
    fun r => stripSeq_padRowF t (X.headD []).length r
  rw [funext hrow]
  exact List.map_id' X

/-- Witness for C1 at the concrete input t = 2, X = [[5]]. -/
theorem claim1_pad_unpad_inverse_witness :
    2 ≤ 2 ∧
      pyxUnpad 2 [[(5 : Int)]].length ([[(5 : Int)]].headD []).length
        (pyxPad 2 [[(5 : Int)]]) = [[(5 : Int)]] :=
  ⟨by decide, claim1_pad_unpad_inverse 2 (by decide) [[(5 : Int)]]⟩

/-- C2, evaluation at the failing input: padding a 1-by-1 image with tile size
t = 2 produces height 3 (one replicated row on each side), and 3 is not a
multiple of 2 — although the source comment promises an image divisible
by pad_size. -/
theorem claim2_pad_height_not_multiple_of_two :
    (pyxPad 2 [[((0 : Int), (0 : Int), (0 : Int))]]).length = 3 ∧
      (pyxPad 2 [[((0 : Int), (0 : Int), (0 : Int))]]).length % 2 = 1 := by
  constructor
  · rfl
  · rfl

/- ---------------------------------------------------------------------------
Geometry configuration and the size flow of Pyx.transform.

Pyx._get_size (lines 146-157) computes the requested pre-expansion size; transform
(lines 290-317) expands it by sobel ** depth, then runs depth iterations of
optional _median (shape preserving: pad by 3, pointwise filters, unpad) followed
by _pyxelate (pad to the sobel grid, then block reduction dividing each axis by
sobel); finally the result is repeated upscale[0] / upscale[1] times per axis and
cast with astype(np.uint8).
--------------------------------------------------------------------------- -/

/-- Constructor-time configuration of Pyx (subset that determines geometry). -/
structure PyxCfg where
  height : Option Nat
  width : Option Nat
  factor : Option Nat
  sobel : Nat
  depth : Nat
  upscale : Nat × Nat
  boost : Bool

/-- Pyx._get_size: explicit height and width win; a single one derives the other
proportionally with python int() truncation; otherwise an integer downscale
factor; otherwise the original size. -/
def getSize (c : PyxCfg) (oh ow : Nat) : Nat × Nat :=
  match c.height, c.width with
  | some hh, some ww => (hh, ww)
  | some hh, none => (hh, (Int.floor ((hh : ℚ) / (oh : ℚ) * (ow : ℚ))).toNat)
  | none, some ww => ((Int.floor ((ww : ℚ) / (ow : ℚ) * (oh : ℚ))).toNat, ww)
  | none, none =>
      match c.factor with
      | some f => (oh / f, ow / f)
      | none => (oh, ow)

/-- Length of one axis after Pyx._pad. -/
def padDim (t n : Nat) : Nat :=
  n + (if n % t > 0 then 1 else 0) + (if n % t = 1 then 1 else 0)

/-- Length of one axis after the unpadding branch of Pyx._pad. -/
def stripDim (t n total : Nat) : Nat :=
  total - (if n % t > 0 then 1 else 0) - (if n % t = 1 then 1 else 0)

/-- Coherence: padDim is the height of the padded pixel image. -/
theorem pyxPad_length [Inhabited α] (t : Nat) (X : List (List α)) :
    (pyxPad t X).length = padDim t X.length := by
  unfold pyxPad padSeq padDim
  by_cases h1 : X.length % t > 0 <;> by_cases h2 : X.length % t = 1 <;>
    simp [h1, h2] <;> omega

/-- Length of one axis after Pyx._median: pad by 3, filter pointwise, unpad. -/
def medianDim (n : Nat) : Nat := stripDim 3 n (padDim 3 n)

/-- Pyx._median preserves the size of each axis. -/
theorem medianDim_id (n : Nat) : medianDim n = n := by
  unfold medianDim stripDim padDim
  by_cases h1 : n % 3 > 0 <;> by_cases h2 : n % 3 = 1 <;> simp [h1, h2]

/-- Length of one axis after Pyx._pyxelate: pad to the sobel grid, then
view_as_blocks block reduction divides the axis by sobel. -/
def pyxelateDim (s n : Nat) : Nat := padDim s n / s

/-- Size of one axis after one iteration of the transform loop: the median
denoise pass (applied when boost is set and the input has exactly 3 channels)
followed by the gradient downsampling. -/
def transformIterDim (boost : Bool) (d s n : Nat) : Nat :=
  pyxelateDim s (if boost && d == 3 then medianDim n else n)

/-- Size expansion before the loop: when depth is nonzero both axes are
multiplied by sobel ** depth (transform line 301). -/
def expandDims (c : PyxCfg) (p : Nat × Nat) : Nat × Nat :=
  if c.depth ≠ 0 then (p.1 * c.sobel ^ c.depth, p.2 * c.sobel ^ c.depth) else p

/-- numpy astype(np.uint8): keep the low 8 bits. -/
def uint8cast (n : Int) : Int := n % 256

/-- Output shape of Pyx.transform: requested size, expansion, depth iterations
of (median; pyxelate), upscale repetition, and the output channel count (the
binarized alpha mask is re-attached exactly when the input had more than 3
channels). -/
def transformDims (c : PyxCfg) (h w d : Nat) : Nat × Nat × Nat :=
  (((Prod.map (transformIterDim c.boost d c.sobel) (transformIterDim c.boost d c.sobel))^[c.depth]
      (expandDims c (getSize c h w))).1 * c.upscale.1,
   ((Prod.map (transformIterDim c.boost d c.sobel) (transformIterDim c.boost d c.sobel))^[c.depth]
      (expandDims c (getSize c h w))).2 * c.upscale.2,
   if d > 3 then 4 else 3)

/-- The configuration produced by the Pyx defaults (sobel 3, depth 1, upscale 1,
boost on, no explicit geometry). -/
def pyxDefaultCfg : PyxCfg :=
  { height := none, width := none, factor := none, sobel := 3, depth := 1,
    upscale := (1, 1), boost := true }

/-- One transform iteration on an axis already divisible by sobel divides it by
sobel exactly (the pad inside _pyxelate is a no-op there). -/
theorem transformIterDim_mul (b : Bool) (d s n : Nat) (hs : 2 ≤ s) :
    transformIterDim b d s (n * s) = n := by
  have hmod : (n * s) % s = 0 := Nat.mul_mod_left n s
  unfold transformIterDim pyxelateDim padDim
  have hmed : medianDim (n * s) = n * s := medianDim_id (n * s)
  by_cases hb : b && d == 3 <;>
    simp [hb, hmed, hmod, Nat.mul_div_cancel n (by omega : 0 < s)]

/-- Iterating the loop depth times undoes the sobel ** depth expansion. -/
theorem transformIterDim_iterate (b : Bool) (d s : Nat) (hs : 2 ≤ s) :
    ∀ j n, (transformIterDim b d s)^[j] (n * s ^ j) = n := by
  intro j
  induction j with
  | zero => intro n; simp
  | succ j ih =>
      intro n
      rw [Function.iterate_succ_apply]
      have hx : n * s ^ (j + 1) = (n * s ^ j) * s := by ring
      rw [hx, transformIterDim_mul b d s (n * s ^ j) hs]
      exact ih n

/-- C9, counterexample to the stated size formula: with the default
configuration (sobel 3, depth 1, upscale 1) on a 9 x 9 x 3 input, the claim
predicts spatial size (9 * 3 ^ 1) * 1 = 27 per axis, but transform produces 9:
the sobel ** depth expansion is exactly undone by the downsampling loop. -/
theorem claim9_counterexample :
    transformDims pyxDefaultCfg 9 9 3 ≠
      ((getSize pyxDefaultCfg 9 9).1 * 3 ^ 1 * 1,
       (getSize pyxDefaultCfg 9 9).2 * 3 ^ 1 * 1, 3) := by
  decide

/-- C9 as amended: for an asserted configuration (sobel at least 2, depth at
least 1) the output spatial dimensions are heightAfterGeometry times upscaleRow
and widthAfterGeometry times upscaleCol — without the tileSize ** depth factor,
which the downsampling loop cancels — the channel count is preserved for 3- and
4-channel inputs, and the uint8 output cast lands in [0, 255]. -/
theorem claim9_amended_dims (c : PyxCfg) (h w d : Nat)
    (hs : 2 ≤ c.sobel) (hd : 1 ≤ c.depth) :
    transformDims c h w d =
      ((getSize c h w).1 * c.upscale.1, (getSize c h w).2 * c.upscale.2,
        if d > 3 then 4 else 3) ∧
      ∀ n : Int, 0 ≤ uint8cast n ∧ uint8cast n < 256 := by
  constructor
  · have hdep : c.depth ≠ 0 := by omega
    have hexp : expandDims c (getSize c h w)
        = ((getSize c h w).1 * c.sobel ^ c.depth,
           (getSize c h w).2 * c.sobel ^ c.depth) := by
      unfold expandDims
      rw [if_pos hdep]
    have hiter : (Prod.map (transformIterDim c.boost d c.sobel)
          (transformIterDim c.boost d c.sobel))^[c.depth]
          (expandDims c (getSize c h w))
        = ((getSize c h w).1, (getSize c h w).2) := by
      rw [hexp, Prod.map_iterate, Prod.map_apply]
      rw [transformIterDim_iterate c.boost d c.sobel hs c.depth ((getSize c h w).1)]
      rw [transformIterDim_iterate c.boost d c.sobel hs c.depth ((getSize c h w).2)]
    unfold transformDims
    rw [hiter]
  · intro n
    exact ⟨Int.emod_nonneg n (by norm_num), Int.emod_lt_of_pos n (by norm_num)⟩

/-- Witness for the amended C9: a configuration with explicit height 6 and width
8, sobel 4, depth 2, upscale pair (2, 3), on a 10 x 7 x 4 input, produces a
12 x 24 x 4 output. -/
theorem claim9_amended_dims_witness :
    2 ≤ (4 : Nat) ∧ 1 ≤ (2 : Nat) ∧
      transformDims
        { height := some 6, width := some 8, factor := none, sobel := 4,
          depth := 2, upscale := (2, 3), boost := false } 10 7 4 = (12, 24, 4) := by
  refine ⟨by decide, by decide, ?_⟩
  rw [(claim9_amended_dims
      { height := some 6, width := some 8, factor := none, sobel := 4,
        depth := 2, upscale := (2, 3), boost := false } 10 7 4
      (by decide) (by decide)).1]
  decide

/- ---------------------------------------------------------------------------
Palette lifecycle: Pyx.__init__ state, Pyx.fit (lines 203-223), the guard
sequence of Pyx.transform (lines 283-288) and the memoized colors property
(lines 179-196).  Machine floats are modelled as rationals (1.07 as 107/100);
the hue conversions are the standard scikit-image formulas, translated pixelwise.
--------------------------------------------------------------------------- -/

/-- Float RGB pixels in the internal 0-1 representation of the engine. -/
abbrev Q3 := ℚ × ℚ × ℚ

/-- skimage rgb2hsv on one pixel: value is the channel maximum, saturation is
delta over value (0 where delta is 0), and the hue branch follows the mask-assignment order of the source, in which the blue-maximum assignment wins over the green
one, which wins over the red one; the hue is divided by 6 and taken mod 1, and
is forced to 0 where delta is 0. -/
def rgb2hsvQ (p : Q3) : Q3 :=
  let r := p.1
  let g := p.2.1
  let b := p.2.2
  let v := max r (max g b)
  let mn := min r (min g b)
  let delta := v - mn
  let s := if delta = 0 then 0 else delta / v
  let hraw :=
    if b = v then 4 + (r - g) / delta
    else if g = v then 2 + (b - r) / delta
    else (g - b) / delta
  let h := if delta = 0 then 0 else Int.fract (hraw / 6)
  (h, s, v)

/-- skimage hsv2rgb on one pixel: sextant selection by the floor of 6h (taken
mod 6 as in the uint8 cast the source applies to of a hue in [0, 1)). -/
def hsv2rgbQ (p : Q3) : Q3 :=
  let hh := p.1
  let s := p.2.1
  let v := p.2.2
  let hi := Int.floor (hh * 6)
  let f := hh * 6 - hi
  let pp := v * (1 - s)
  let q := v * (1 - f * s)
  let t := v * (1 - (1 - f) * s)
  match (hi % 6).toNat with
  | 0 => (v, t, pp)
  | 1 => (q, v, pp)
  | 2 => (pp, v, t)
  | 3 => (pp, q, v)
  | 4 => (t, pp, v)
  | _ => (v, pp, q)

/-- Pyx.SCALE_RGB = 1.07, as a rational. -/
def SCALE_RGB : ℚ := 107 / 100

/-- Quantization of one palette channel in Pyx.colors: floor-divide c * 255 by
COLOR_QUANT = 8, re-multiply, clip to [0, 255], then push values below
2 * COLOR_QUANT to 0 and values above 255 - 2 * COLOR_QUANT to 255. -/
def quantChannel (x : ℚ) : Int :=
  let c := min (max (Int.floor (x * 255 / 8) * 8) 0) 255
  if c < 16 then 0 else if c > 239 then 255 else c

/-- Pyx.colors, find-palette branch: hue-saturation-value scaling of the fitted
component means by SCALE_RGB on the S and V channels, conversion back to RGB,
and channel quantization. -/
def deriveAuto (means : List Q3) : List Color :=
  means.map (fun m =>
    let c0 := rgb2hsvQ m
    let c1 : Q3 := (c0.1, c0.2.1 * SCALE_RGB, c0.2.2 * SCALE_RGB)
    let c2 := hsv2rgbQ c1
    (quantChannel c2.1, quantChannel c2.2.1, quantChannel c2.2.2))

/-- Pyx._image_to_int on a list of integer colors: clip each channel to
[0, 255]. -/
def imageToIntList (l : List Color) : List Color :=
  l.map (fun c =>
    (min (max c.1 0) 255, min (max c.2.1 0) 255, min (max c.2.2 0) 255))

/-- Estimator state of a Pyx instance: the palette configuration fixed at
construction, the fitted model (represented by its component means: the
clustering computation itself is an external collaborator, so fitting receives
the means it produces), the is_fitted flag and the memoized palette cache. -/
structure PyxState where
  find_palette : Bool
  paletteNum : Nat
  paletteList : List Color
  means : List Q3
  is_fitted : Bool
  palette_cache : Option (List Color)
  deriving DecidableEq

/-- The two fatal sequencing asserts of the engine. -/
inductive PyxError where
  | notFitted
  | paletteTooLarge
  deriving DecidableEq

/-- Requested (find-palette mode) or supplied (fixed-palette mode) palette
size, as compared by the transform assert. -/
def paletteSize (s : PyxState) : Nat :=
  if s.find_palette then s.paletteNum else s.paletteList.length

/-- State update performed by Pyx.fit: store the freshly fitted model and set
is_fitted.  No other field is touched — in particular palette_cache is kept. -/
def fitSt (s : PyxState) (m : List Q3) : PyxState :=
  { s with means := m, is_fitted := true }

/-- Pyx.fit as a fallible operation: the body resizes the input and fits the
clustering model — it contains no pixel-count check and no raise — and then
sets is_fitted, so it always succeeds. -/
def fitRun (s : PyxState) (h w d : Nat) (newMeans : List Q3) :
    Except PyxError PyxState :=
  Except.ok (fitSt s newMeans)

/-- The guard sequence at the top of Pyx.transform: the is_fitted assert, then
the pixel-count assert h * w > palette (respectively len(palette)). -/
def transformGuard (s : PyxState) (h w : Nat) : Except PyxError Unit :=
  if s.is_fitted then
    if s.find_palette then
      if h * w ≤ s.paletteNum then Except.error PyxError.paletteTooLarge
      else Except.ok ()
    else
      if h * w ≤ s.paletteList.length then Except.error PyxError.paletteTooLarge
      else Except.ok ()
  else Except.error PyxError.notFitted

/-- The Pyx.colors property: memoized through palette_cache; on a cache miss
the find-palette branch asserts is_fitted and derives colors from the fitted
means, the fixed-palette branch converts the supplied palette; the freshly
derived list is stored in the cache.  On a cache hit the cached list is
returned unconditionally. -/
def colorsGet (s : PyxState) : Except PyxError (List Color × PyxState) :=
  match s.palette_cache with
  | some c => Except.ok (c, s)
  | none =>
      if s.find_palette then
        if s.is_fitted then
          Except.ok (deriveAuto s.means,
            { s with palette_cache := some (deriveAuto s.means) })
        else Except.error PyxError.notFitted
      else
        Except.ok (imageToIntList s.paletteList,
          { s with palette_cache := some (imageToIntList s.paletteList) })

/-- A freshly constructed find-palette instance requesting 8 colors. -/
def pyxFresh8 : PyxState :=
  { find_palette := true, paletteNum := 8, paletteList := [], means := [],
    is_fitted := false, palette_cache := none }

/-- C3, counterexample: a 1 x 1 image has pixel count 1, which does not exceed
the requested palette size 8, yet fit does not fail — it succeeds and marks the
instance fitted.  The pixel-count check does not run at fit time. -/
theorem claim3_counterexample :
    1 * 1 ≤ paletteSize pyxFresh8 ∧
      fitRun pyxFresh8 1 1 3 [] = Except.ok (fitSt pyxFresh8 []) :=
  ⟨by decide, rfl⟩

/-- C3 as amended: the pixel-count check is a transform-time assert on the
transform image: for a fitted instance, transform raises the sequencing error
exactly when the pixel count does not strictly exceed the requested or supplied
palette size and passes the guard otherwise; fit itself never raises a
pixel-count error. -/
theorem claim3_amended_guard (s : PyxState) (h w : Nat) (hf : s.is_fitted = true) :
    (h * w ≤ paletteSize s →
        transformGuard s h w = Except.error PyxError.paletteTooLarge) ∧
    (paletteSize s < h * w → transformGuard s h w = Except.ok ()) ∧
    (∀ h' w' d' m, fitRun s h' w' d' m = Except.ok (fitSt s m)) := by
  refine ⟨?_, ?_, fun h' w' d' m => rfl⟩
  · intro hle
    by_cases hfp : s.find_palette <;>
      simp_all [transformGuard, paletteSize, hfp]
  · intro hlt
    by_cases hfp : s.find_palette <;>
      simp_all [transformGuard, paletteSize, hfp] <;> omega

/-- Witness for the amended C3 at a fitted 2-color instance: a 1 x 2 image
fails the guard and a 2 x 2 image passes it. -/
theorem claim3_amended_guard_witness :
    (({ find_palette := true, paletteNum := 2, paletteList := [], means := [],
        is_fitted := true, palette_cache := none } : PyxState).is_fitted = true) ∧
    transformGuard
      { find_palette := true, paletteNum := 2, paletteList := [], means := [],
        is_fitted := true, palette_cache := none } 1 2 =
      Except.error PyxError.paletteTooLarge ∧
    transformGuard
      { find_palette := true, paletteNum := 2, paletteList := [], means := [],
        is_fitted := true, palette_cache := none } 2 2 = Except.ok () := by
  refine ⟨rfl, ?_, ?_⟩
  · exact (claim3_amended_guard _ 1 2 rfl).1 (by decide)
  · exact (claim3_amended_guard _ 2 2 rfl).2.1 (by decide)

/-- A freshly constructed find-palette instance requesting 2 colors. -/
def pyxFresh2 : PyxState :=
  { find_palette := true, paletteNum := 2, paletteList := [], means := [],
    is_fitted := false, palette_cache := none }

/-- Fitted means of the first model: black and white. -/
def meansBW : List Q3 := [(0, 0, 0), (1, 1, 1)]

/-- Fitted means of the second model: white and black (the reverse order). -/
def meansWB : List Q3 := [(1, 1, 1), (0, 0, 0)]

/-- The state after fitting meansBW and reading colors once. -/
def pyxCachedBW : PyxState :=
  { find_palette := true, paletteNum := 2, paletteList := [], means := meansBW,
    is_fitted := true, palette_cache := some [(0, 0, 0), (255, 255, 255)] }

/-- C4, counterexample: fit meansBW, read colors (which caches black, white),
refit with meansWB.  The cache is not invalidated: colors still returns the
cached black-then-white list of the first model, while the colors derived from
the newly fitted model are white-then-black — so the invalidated-cache
behavior of the claim is refuted at this concrete run. -/
theorem claim4_counterexample :
    colorsGet (fitSt pyxFresh2 meansBW) =
      Except.ok ([(0, 0, 0), (255, 255, 255)], pyxCachedBW) ∧
    colorsGet (fitSt pyxCachedBW meansWB) =
      Except.ok ([(0, 0, 0), (255, 255, 255)], fitSt pyxCachedBW meansWB) ∧
    deriveAuto (fitSt pyxCachedBW meansWB).means =
      [(255, 255, 255), (0, 0, 0)] ∧
    ([((0 : Int), (0 : Int), (0 : Int)), (255, 255, 255)] : List Color) ≠
      [(255, 255, 255), (0, 0, 0)] := by
  refine ⟨?_, rfl, ?_, by decide⟩
  · with_unfolding_all rfl
  · with_unfolding_all rfl

/-- C4 as amended: the memoized palette cache is NOT invalidated by a refit:
after calling fit again, the cache still holds the colors of the previous
model, and the colors property keeps returning that cached list (not colors
derived from the newly fitted means). -/
theorem claim4_amended_cache_kept (s : PyxState) (m : List Q3) (c : List Color)
    (hc : s.palette_cache = some c) :
    (fitSt s m).palette_cache = some c ∧
    colorsGet (fitSt s m) = Except.ok (c, fitSt s m) := by
  have h2 : (fitSt s m).palette_cache = some c := hc
  refine ⟨h2, ?_⟩
  unfold colorsGet
  rw [h2]

/-- Witness for the amended C4 at the concrete cached state pyxCachedBW. -/
theorem claim4_amended_cache_kept_witness :
    pyxCachedBW.palette_cache = some [(0, 0, 0), (255, 255, 255)] ∧
    ((fitSt pyxCachedBW meansWB).palette_cache =
        some [(0, 0, 0), (255, 255, 255)] ∧
      colorsGet (fitSt pyxCachedBW meansWB) =
        Except.ok ([(0, 0, 0), (255, 255, 255)], fitSt pyxCachedBW meansWB)) :=
  ⟨rfl, claim4_amended_cache_kept pyxCachedBW meansWB _ rfl⟩

/- ---------------------------------------------------------------------------
numpy argmax / argmin semantics: the first index attaining the extremum.
--------------------------------------------------------------------------- -/

/-- numpy argmax over a flat list: the first index whose value is at least
every value of the list. -/
def npArgmax (l : List ℚ) : Nat :=
  l.findIdx (fun a => l.all (fun b => decide (b ≤ a)))

/-- numpy argmin over a flat list: the first index whose value is at most
every value of the list. -/
def npArgmin (l : List ℚ) : Nat :=
  l.findIdx (fun a => l.all (fun b => decide (a ≤ b)))

/-- Every nonempty rational list has a least element. -/
theorem exists_all_le (l : List ℚ) (hl : l ≠ []) : ∃ a ∈ l, ∀ b ∈ l, a ≤ b := by
  induction l with
  | nil => exact absurd rfl hl
  | cons x t ih =>
      by_cases ht : t = []
      · subst ht
        exact ⟨x, List.mem_cons_self x [], by simp⟩
      · obtain ⟨a, ha, hall⟩ := ih ht
        by_cases hxa : x ≤ a
        · refine ⟨x, List.mem_cons_self x t, fun b hb => ?_⟩
          rcases List.mem_cons.mp hb with rfl | hb
          · exact le_refl b
          · exact hxa.trans (hall b hb)
        · refine ⟨a, List.mem_cons_of_mem x ha, fun b hb => ?_⟩
          rcases List.mem_cons.mp hb with rfl | hb
          · exact le_of_not_le hxa
          · exact hall b hb

/-- Every nonempty rational list has a greatest element. -/
theorem exists_all_ge (l : List ℚ) (hl : l ≠ []) : ∃ a ∈ l, ∀ b ∈ l, b ≤ a := by
  induction l with
  | nil => exact absurd rfl hl
  | cons x t ih =>
      by_cases ht : t = []
      · subst ht
        exact ⟨x, List.mem_cons_self x [], by simp⟩
      · obtain ⟨a, ha, hall⟩ := ih ht
        by_cases hxa : a ≤ x
        · refine ⟨x, List.mem_cons_self x t, fun b hb => ?_⟩
          rcases List.mem_cons.mp hb with rfl | hb
          · exact le_refl b
          · exact (hall b hb).trans hxa
        · refine ⟨a, List.mem_cons_of_mem x ha, fun b hb => ?_⟩
          rcases List.mem_cons.mp hb with rfl | hb
          · exact le_of_not_le hxa
          · exact hall b hb

/-- The argmax of a nonempty list is a valid index. -/
theorem npArgmax_lt_length (l : List ℚ) (hl : l ≠ []) : npArgmax l < l.length := by
  apply List.findIdx_lt_length_of_exists
  obtain ⟨a, ha, hall⟩ := exists_all_ge l hl
  exact ⟨a, ha, List.all_eq_true.mpr fun b hb => decide_eq_true (hall b hb)⟩

/-- The argmin of a nonempty list is a valid index. -/
theorem npArgmin_lt_length (l : List ℚ) (hl : l ≠ []) : npArgmin l < l.length := by
  apply List.findIdx_lt_length_of_exists
  obtain ⟨a, ha, hall⟩ := exists_all_le l hl
  exact ⟨a, ha, List.all_eq_true.mpr fun b hb => decide_eq_true (hall b hb)⟩

/-- The value at the argmin is at most every value of the list. -/
theorem npArgmin_le (l : List ℚ) (hl : l ≠ []) (j : Nat) (hj : j < l.length) :
    l.getD (npArgmin l) 0 ≤ l.getD j 0 := by
  have hlt : npArgmin l < l.length := npArgmin_lt_length l hl
  have hp := @List.findIdx_getElem _ (fun a => l.all (fun b => decide (a ≤ b))) l hlt
  have hall := List.all_eq_true.mp hp
  rw [List.getD_eq_getElem l 0 hlt, List.getD_eq_getElem l 0 hj]
  exact of_decide_eq_true (hall _ (List.getElem_mem hj))

/- ---------------------------------------------------------------------------
Dither-free branch of Pyx.transform (lines 323-325) followed by the shared
epilogue (lines 398-407): predict, index the palette, reshape, upscale, cast.
--------------------------------------------------------------------------- -/

/-- sklearn predict on the fitted mixture: argmax over the k per-component
scores of one sample (the scoring function of the fitted model is the external
collaborator; predict is its argmax). -/
def bgmPredict (k : Nat) (score : Nat → ℚ) : Nat :=
  npArgmax ((List.range k).map score)

/-- Dither-free color assignment: X_ = colors[model.predict(reshaped)], pixel
by pixel over the N flattened pixels. -/
def transformNoneFlat (pal : List Color) (k : Nat) (score : Nat → Nat → ℚ)
    (N : Nat) : List Color :=
  (List.range N).map (fun t => pal.getD (bgmPredict k (score t)) (0, 0, 0))

/-- np.reshape of a flat pixel list to h rows of w pixels. -/
def reshapeRows (h w : Nat) (l : List α) : List (List α) :=
  (List.range h).map (fun r => (l.drop (r * w)).take w)

/-- astype(np.uint8) on a color. -/
def uint8color (c : Color) : Color :=
  (uint8cast c.1, uint8cast c.2.1, uint8cast c.2.2)

/-- The np.repeat upscale along both axes followed by the astype(np.uint8)
cast — the epilogue of Pyx.transform. -/
def upscaleCast (u0 u1 : Nat) (rows : List (List Color)) : List (List Color) :=
  (rows.flatMap (fun r => List.replicate u0 r)).map
    (fun r => (r.flatMap (fun c => List.replicate u1 c)).map uint8color)

/-- Pyx.transform with dither none on a 3-channel image, from the fitted-model
prediction to the returned buffer. -/
def transformNoneOut (pal : List Color) (k : Nat) (score : Nat → Nat → ℚ)
    (h w u0 u1 : Nat) : List (List Color) :=
  upscaleCast u0 u1 (reshapeRows h w (transformNoneFlat pal k score (h * w)))

/-- All channels of a color lie in [0, 255]. -/
abbrev colorInRange (c : Color) : Prop :=
  0 ≤ c.1 ∧ c.1 ≤ 255 ∧ 0 ≤ c.2.1 ∧ c.2.1 ≤ 255 ∧ 0 ≤ c.2.2 ∧ c.2.2 ≤ 255

/-- The uint8 cast is the identity on colors already in range. -/
theorem uint8color_of_range (c : Color) (hc : colorInRange c) : uint8color c = c := by
  obtain ⟨h1, h2, h3, h4, h5, h6⟩ := hc
  unfold uint8color uint8cast
  refine Prod.ext ?_ (Prod.ext ?_ ?_) <;> simp only [] <;>
    exact Int.emod_eq_of_lt (by omega) (by omega)

/-- Every pixel produced by the flat dither-free assignment is a palette
color. -/
theorem transformNoneFlat_mem (pal : List Color) (k : Nat)
    (score : Nat → Nat → ℚ) (N : Nat) (hk : k = pal.length) (hk0 : 0 < k) :
    ∀ c ∈ transformNoneFlat pal k score N, c ∈ pal := by
  intro c hc
  obtain ⟨t, _, rfl⟩ := List.mem_map.mp hc
  have hne : ((List.range k).map (score t)) ≠ [] := by
    simp [List.map_eq_nil_iff, List.range_eq_nil]
    omega
  have hlt : bgmPredict k (score t) < pal.length := by
    have := npArgmax_lt_length ((List.range k).map (score t)) hne
    simpa [bgmPredict, hk] using this
  rw [List.getD_eq_getElem pal (0, 0, 0) hlt]
  exact List.getElem_mem hlt

/-- C5: for every fitted model (any per-component scoring function), palette
list of matching length with colors in range, and image geometry, every pixel
of the dither-free transform output is a member of the palette — the distinct
output colors are a subset of the fitted palette. -/
theorem claim5_none_output_subset (pal : List Color) (k : Nat)
    (score : Nat → Nat → ℚ) (h w u0 u1 : Nat)
    (hk : k = pal.length) (hk0 : 0 < k) (hrange : ∀ c ∈ pal, colorInRange c) :
    ∀ row ∈ transformNoneOut pal k score h w u0 u1, ∀ c ∈ row, c ∈ pal := by
  intro row hrow c hc
  unfold transformNoneOut upscaleCast at hrow
  obtain ⟨r0, hr0, rfl⟩ := List.mem_map.mp hrow
  obtain ⟨r1, hr1, hrep⟩ := List.mem_flatMap.mp hr0
  have hr01 : r0 = r1 := List.eq_of_mem_replicate hrep
  subst hr01
  obtain ⟨c1, hc1, rfl⟩ := List.mem_map.mp hc
  obtain ⟨c2, hc2, hcrep⟩ := List.mem_flatMap.mp hc1
  have hc12 : c1 = c2 := List.eq_of_mem_replicate hcrep
  subst hc12
  have hc2flat : c1 ∈ transformNoneFlat pal k score (h * w) := by
    unfold reshapeRows at hr1
    obtain ⟨r, _, rfl⟩ := List.mem_map.mp hr1
    exact List.drop_subset _ _ (List.take_subset _ _ hc2)
  have hmem : c1 ∈ pal := transformNoneFlat_mem pal k score (h * w) hk hk0 c1 hc2flat
  rw [uint8color_of_range c1 (hrange c1 hmem)]
  exact hmem

/-- Witness for C5: palette black and white, a 2-component model whose score
prefers the second component everywhere, a 1 x 2 image, upscale 1. -/
theorem claim5_none_output_subset_witness :
    (2 = ([((0 : Int), (0 : Int), (0 : Int)), (255, 255, 255)] : List Color).length) ∧
    (0 : Nat) < 2 ∧
    (∀ c ∈ ([((0 : Int), (0 : Int), (0 : Int)), (255, 255, 255)] : List Color),
      colorInRange c) ∧
    ∀ row ∈ transformNoneOut [((0 : Int), (0 : Int), (0 : Int)), (255, 255, 255)] 2
        (fun _ i => (i : ℚ)) 1 2 1 1, ∀ c ∈ row,
      c ∈ ([((0 : Int), (0 : Int), (0 : Int)), (255, 255, 255)] : List Color) :=
  ⟨rfl, by decide, by decide,
    claim5_none_output_subset _ 2 (fun _ i => (i : ℚ)) 1 2 1 1 rfl (by decide)
      (by decide)⟩

/- ---------------------------------------------------------------------------
Bayer branch of Pyx.transform (lines 345-351): per candidate color, convolve its
posterior plane with DITHER_BAYER_MATRIX in reflect mode, then np.argmin over
colors at every pixel.
--------------------------------------------------------------------------- -/

/-- The precalculated 4x4 Bayer matrix of Pyx (source values over 16 minus
one half, stored as exact rationals). -/
def bayerMatrix : List (List ℚ) :=
  [[-(1/2), 0, -(3/8), 1/8],
   [1/4, -(1/4), 3/8, -(1/8)],
   [-(5/16), 3/16, -(7/16), 1/16],
   [7/16, -(1/16), 5/16, -(3/16)]]

/-- scipy reflect boundary mode (d c b a | a b c d | d c b a): fold an
out-of-range index back into [0, n). -/
def reflectIdx (n : Nat) (i : Int) : Nat :=
  if n = 0 then 0
  else
    let m := (i % (2 * (n : Int))).toNat
    if m < n then m else 2 * n - 1 - m

/-- scipy.ndimage.convolve of one probability plane with the 4x4 Bayer matrix
in reflect mode, at output pixel (y, x): the sum over kernel positions (u, v)
of W[u][v] * plane[reflect(y + 2 - u)][reflect(x + 2 - v)], the offset 2 being
size // 2 used by scipy for an even-sized convolution kernel. -/
def bayerConvAt (hgt wid : Nat) (plane : Nat → Nat → ℚ) (y x : Nat) : ℚ :=
  ((List.range 4).map (fun u =>
    ((List.range 4).map (fun v =>
      (bayerMatrix.getD u []).getD v 0 *
        plane (reflectIdx hgt ((y : Int) + 2 - (u : Int)))
          (reflectIdx wid ((x : Int) + 2 - (v : Int))))).sum)).sum

/-- The posterior plane of color i: column i of predict_proba reshaped to
(final_h, final_w). -/
def probPlane (wid : Nat) (probs : Nat → Nat → ℚ) (i : Nat)
    (y x : Nat) : ℚ :=
  probs (y * wid + x) i

/-- Bayer branch index selection at pixel (y, x): np.argmin over the k
convolved planes. -/
def bayerPickAt (k hgt wid : Nat) (probs : Nat → Nat → ℚ) (y x : Nat) : Nat :=
  npArgmin ((List.range k).map (fun i => bayerConvAt hgt wid (probPlane wid probs i) y x))

/-- Bayer branch output pixel: colors[argmin ...]. -/
def bayerOutAt (pal : List Color) (k hgt wid : Nat) (probs : Nat → Nat → ℚ)
    (y x : Nat) : Color :=
  pal.getD (bayerPickAt k hgt wid probs y x) (0, 0, 0)

/-- getD on a mapped range evaluates the function. -/
theorem getD_range_map (f : Nat → ℚ) (k i : Nat) (hi : i < k) :
    ((List.range k).map f).getD i 0 = f i := by
  have hlen : i < ((List.range k).map f).length := by simpa using hi
  rw [List.getD_eq_getElem _ 0 hlen]
  simp

/-- C7: with ordered (bayer) dithering, the index assigned at every pixel is a
valid palette index whose Bayer-convolved posterior plane attains the minimum
value at that pixel among all k candidate colors, and the output pixel is the
palette color at that index. -/
theorem claim7_bayer_argmin (pal : List Color) (k hgt wid : Nat)
    (probs : Nat → Nat → ℚ) (y x : Nat) (hk : 0 < k) :
    bayerPickAt k hgt wid probs y x < k ∧
    bayerOutAt pal k hgt wid probs y x =
      pal.getD (bayerPickAt k hgt wid probs y x) (0, 0, 0) ∧
    ∀ j < k,
      bayerConvAt hgt wid (probPlane wid probs (bayerPickAt k hgt wid probs y x)) y x ≤
        bayerConvAt hgt wid (probPlane wid probs j) y x := by
  have hne : ((List.range k).map
      (fun i => bayerConvAt hgt wid (probPlane wid probs i) y x)) ≠ [] := by
    simp [List.map_eq_nil_iff, List.range_eq_nil]
    omega
  have hlen : ((List.range k).map
      (fun i => bayerConvAt hgt wid (probPlane wid probs i) y x)).length = k := by
    simp
  refine ⟨?_, rfl, ?_⟩
  · have := npArgmin_lt_length _ hne
    rw [hlen] at this
    exact this
  · intro j hj
    have hpick : bayerPickAt k hgt wid probs y x < k := by
      have := npArgmin_lt_length _ hne
      rw [hlen] at this
      exact this
    have hle := npArgmin_le _ hne j (by rw [hlen]; exact hj)
    rw [getD_range_map _ k j hj] at hle
    have hfold : npArgmin ((List.range k).map
        (fun i => bayerConvAt hgt wid (probPlane wid probs i) y x)) =
        bayerPickAt k hgt wid probs y x := rfl
    rw [hfold, getD_range_map _ k _ hpick] at hle
    exact hle

/-- Witness for C7 at a concrete 2-color, 2 x 2 configuration. -/
theorem claim7_bayer_argmin_witness :
    (0 : Nat) < 2 ∧
    (bayerPickAt 2 2 2 (fun t i => ((t + i : Nat) : ℚ)) 0 1 < 2 ∧
     bayerOutAt [((0 : Int), (0 : Int), (0 : Int)), (255, 255, 255)] 2 2 2
        (fun t i => ((t + i : Nat) : ℚ)) 0 1 =
       [((0 : Int), (0 : Int), (0 : Int)), (255, 255, 255)].getD
         (bayerPickAt 2 2 2 (fun t i => ((t + i : Nat) : ℚ)) 0 1) (0, 0, 0) ∧
     ∀ j < 2,
       bayerConvAt 2 2 (probPlane 2 (fun t i => ((t + i : Nat) : ℚ))
           (bayerPickAt 2 2 2 (fun t i => ((t + i : Nat) : ℚ)) 0 1)) 0 1 ≤
         bayerConvAt 2 2 (probPlane 2 (fun t i => ((t + i : Nat) : ℚ)) j) 0 1) :=
  ⟨by decide,
    claim7_bayer_argmin [((0 : Int), (0 : Int), (0 : Int)), (255, 255, 255)] 2 2 2
      (fun t i => ((t + i : Nat) : ℚ)) 0 1 (by decide)⟩

/- ---------------------------------------------------------------------------
Naive dithering branch of Pyx.transform (lines 326-344):

  pad = not bool(final_w % 2)
  for i in range(0, len(X_), 2):
      m = (i // final_w) % 2
      if pad:
          i += m
      if m:
          if v1[i]:
              X_[i] = self.colors[p2[i]]
      elif v2[i]:
          X_[i] = self.colors[p2[i]]

v1 and v2 are the base and boosted posterior-margin masks; they and p2 (the
second-best component per pixel) come from the external model scoring, so they
enter the embedding as parameters.
--------------------------------------------------------------------------- -/

/-- The flat index written by the loop iteration that starts at even index i:
when the final width is even, the row parity of i is added (the even / odd
column offset); with an odd width the index is unchanged. -/
def naiveTarget (w i : Nat) : Nat :=
  if w % 2 = 0 then i + (i / w) % 2 else i

/-- Whether the iteration starting at even index i writes: odd rows test the
base mask v1, even rows the boosted mask v2, both at the target index. -/
def naiveHits (w : Nat) (v1 v2 : Nat → Bool) (i : Nat) : Bool :=
  if (i / w) % 2 = 1 then v1 (naiveTarget w i) else v2 (naiveTarget w i)

/-- The naive dithering loop: for every even flat index 2 * kk below h * w,
when the row-parity-selected mask holds at the target index, the pixel there is
replaced by the second-best color colors[p2[target]]. -/
def naiveDither (h w : Nat) (v1 v2 : Nat → Bool) (p2 : Nat → Nat)
    (pal : List Color) (X : List Color) : List Color :=
  (List.range ((h * w + 1) / 2)).foldl
    (fun acc kk =>
      if naiveHits w v1 v2 (2 * kk) then
        acc.set (naiveTarget w (2 * kk))
          (pal.getD (p2 (naiveTarget w (2 * kk))) (0, 0, 0))
      else acc)
    X

/-- The set of flat positions at which the naive dithering loop substitutes the
second-best color. -/
def naiveSubstituted (h w : Nat) (v1 v2 : Nat → Bool) (j : Nat) : Prop :=
  ∃ kk, 2 * kk < h * w ∧ naiveHits w v1 v2 (2 * kk) = true ∧
    j = naiveTarget w (2 * kk)

/-- Positions the loop never writes keep their original pixel. -/
theorem naiveDither_unchanged (h w : Nat) (v1 v2 : Nat → Bool) (p2 : Nat → Nat)
    (pal : List Color) (X : List Color) (j : Nat)
    (hj : ¬ naiveSubstituted h w v1 v2 j) :
    (naiveDither h w v1 v2 p2 pal X)[j]? = X[j]? := by
  unfold naiveDither
  have hks : ∀ kk ∈ List.range ((h * w + 1) / 2),
      ¬(naiveHits w v1 v2 (2 * kk) = true ∧ j = naiveTarget w (2 * kk)) := by
    intro kk hkk hand
    exact hj ⟨kk, by have := List.mem_range.mp hkk; omega, hand.1, hand.2⟩
  revert hks
  generalize List.range ((h * w + 1) / 2) = ks
  intro hks
  induction ks generalizing X with
  | nil => rfl
  | cons a t ih =>
      rw [List.foldl_cons]
      by_cases hhit : naiveHits w v1 v2 (2 * a)
      · rw [if_pos hhit]
        rw [ih _ (fun kk hkk => hks kk (List.mem_cons_of_mem a hkk))]
        apply List.getElem?_set_ne
        intro hcontra
        exact hks a (List.mem_cons_self a t) ⟨hhit, hcontra.symm⟩
      · rw [if_neg hhit]
        exact ih _ (fun kk hkk => hks kk (List.mem_cons_of_mem a hkk))

/-- With an even width, every substituted position sits on the checkerboard:
its column parity equals its row parity. -/
theorem naiveSubstituted_checker (h w : Nat) (v1 v2 : Nat → Bool) (j : Nat)
    (hwe : w % 2 = 0) (hw0 : 0 < w) (hs : naiveSubstituted h w v1 v2 j) :
    j % 2 = (j / w) % 2 := by
  obtain ⟨kk, hbound, hhit, rfl⟩ := hs
  unfold naiveTarget
  rw [if_pos hwe]
  rcases Nat.mod_two_eq_zero_or_one ((2 * kk) / w) with hm | hm
  · rw [hm, Nat.add_zero, hm]
    omega
  · rw [hm]
    have hdiv : (2 * kk + 1) / w = (2 * kk) / w := by
      apply Nat.div_eq_of_lt_le
      · exact le_trans (Nat.div_mul_le_self (2 * kk) w) (Nat.le_succ _)
      · have hda := Nat.div_add_mod (2 * kk) w
        have hml := Nat.mod_lt (2 * kk) hw0
        have hrw : ((2 * kk) / w + 1) * w = w * ((2 * kk) / w) + w := by ring
        have h1 : 2 * kk < ((2 * kk) / w + 1) * w := by omega
        have h2 : (((2 * kk) / w + 1) * w) % 2 = 0 := by
          rw [Nat.mul_mod, hwe, Nat.mul_zero]
        omega
    rw [hdiv, hm]
    omega

/-- C8: two pixels substituted by the naive ditherer are never horizontally
adjacent: whenever both flat positions j and j + 1 are substituted they lie in
different rows. -/
theorem claim8_naive_no_horizontal_adjacent (h w : Nat) (v1 v2 : Nat → Bool)
    (j : Nat) (hs1 : naiveSubstituted h w v1 v2 j)
    (hs2 : naiveSubstituted h w v1 v2 (j + 1)) :
    j / w ≠ (j + 1) / w := by
  rcases Nat.eq_zero_or_pos w with hw0 | hw0
  · obtain ⟨kk, hb, _, _⟩ := hs1
    subst hw0
    omega
  rcases Nat.mod_two_eq_zero_or_one w with hwe | hwo
  · intro heq
    have h1 := naiveSubstituted_checker h w v1 v2 j hwe hw0 hs1
    have h2 := naiveSubstituted_checker h w v1 v2 (j + 1) hwe hw0 hs2
    rw [heq] at h1
    generalize (j + 1) / w = q at h1 h2
    omega
  · obtain ⟨k1, _, _, hj1⟩ := hs1
    obtain ⟨k2, _, _, hj2⟩ := hs2
    unfold naiveTarget at hj1 hj2
    rw [if_neg (by omega)] at hj1
    rw [if_neg (by omega)] at hj2
    omega

/-- Witness for C8: on a 4 x 2 image with all-true masks, positions 3 and 4 are
both substituted and indeed land in different rows. -/
theorem claim8_naive_no_horizontal_adjacent_witness :
    naiveSubstituted 4 2 (fun _ => true) (fun _ => true) 3 ∧
    naiveSubstituted 4 2 (fun _ => true) (fun _ => true) 4 ∧
    3 / 2 ≠ 4 / 2 :=
  ⟨⟨1, by decide, by decide, by decide⟩,
   ⟨2, by decide, by decide, by decide⟩,
   claim8_naive_no_horizontal_adjacent 4 2 (fun _ => true) (fun _ => true) 3
     ⟨1, by decide, by decide, by decide⟩
     ⟨2, by decide, by decide, by decide⟩⟩

/- ---------------------------------------------------------------------------
BGM.predict_proba (lines 80-87):

  p = super().predict_proba(X)
  if self.find_palette:
      if self.palette < 3:
          return np.sqrt(p)
  elif len(self.palette) < 3:
      return np.sqrt(p)
  return p

The base-class posterior is the external mixture computation; it enters the
embedding as the argument.  Probabilities are real numbers here because the
elementwise square root must be exact.
--------------------------------------------------------------------------- -/

/-- Construction-time palette configuration of the BGM wrapper. -/
structure BGMcfg where
  find_palette : Bool
  paletteNum : Nat
  paletteList : List Color

/-- Number of mixture components chosen by BGM.__init__: the requested count in
find-palette mode, the length of the supplied palette otherwise. -/
def BGMcfg.nComponents (b : BGMcfg) : Nat :=
  if b.find_palette then b.paletteNum else b.paletteList.length

/-- BGM.predict_proba on the base-class posterior.  (Not executable only
because the exact real square root is not: the branch structure is that of
the source.) -/
noncomputable def predictProba (b : BGMcfg) (post : List ℝ) : List ℝ :=
  if b.find_palette then
    (if b.paletteNum < 3 then post.map Real.sqrt else post)
  else
    (if b.paletteList.length < 3 then post.map Real.sqrt else post)

/-- C6: when the effective palette has fewer than 3 colors, predict_proba
returns the elementwise square root of the posterior — with no renormalization,
each entry is exactly the square root of the corresponding posterior entry —
and with 3 or more colors it returns the posterior unchanged. -/
theorem claim6_predict_proba_small_palette (b : BGMcfg) (post : List ℝ) :
    (b.nComponents < 3 → predictProba b post = post.map Real.sqrt) ∧
    (3 ≤ b.nComponents → predictProba b post = post) := by
  constructor
  · intro h3
    unfold BGMcfg.nComponents at h3
    unfold predictProba
    by_cases hf : b.find_palette
    · rw [if_pos hf, if_pos (by rwa [if_pos hf] at h3)]
    · rw [if_neg hf, if_pos (by rwa [if_neg hf] at h3)]
  · intro h3
    unfold BGMcfg.nComponents at h3
    unfold predictProba
    by_cases hf : b.find_palette
    · rw [if_pos hf, if_neg (by rw [if_pos hf] at h3; omega)]
    · rw [if_neg hf, if_neg (by rw [if_neg hf] at h3; omega)]

/-- Witness for C6: a find-palette wrapper requesting 2 colors square-roots the
posterior [1/4], and that square root evaluates to 1/2. -/
theorem claim6_predict_proba_small_palette_witness :
    BGMcfg.nComponents ⟨true, 2, []⟩ < 3 ∧
    predictProba ⟨true, 2, []⟩ [(1 / 4 : ℝ)] = [Real.sqrt (1 / 4)] ∧
    Real.sqrt ((1 / 4 : ℝ)) = 1 / 2 := by
  refine ⟨by decide, ?_, ?_⟩
  · rw [(claim6_predict_proba_small_palette ⟨true, 2, []⟩ [(1 / 4 : ℝ)]).1 (by decide)]
    rfl
  · rw [show ((1 / 4 : ℝ)) = (1 / 2) ^ 2 by norm_num,
      Real.sqrt_sq (by norm_num : (0 : ℝ) ≤ 1 / 2)]

/- ---------------------------------------------------------------------------
Pyx.fit sample preparation for 4-channel images (lines 207-213):

  X_ = self._dilate(X).reshape(-1, 4)
  alpha_mask = X_[:, 3]
  X_ = X_[alpha_mask >= self.alpha]
  X_ = X_.reshape(1, -1, 4)
  X_ = resize(X[:, :, :3], (1, min(h, self.BGM_RESIZE) * min(w, self.BGM_RESIZE)),
              anti_aliasing=False)

The final rebinding discards everything the first three statements computed.
The external dilation and resize collaborators enter as function parameters.
--------------------------------------------------------------------------- -/

/-- A 4-channel float pixel: red, green, blue, alpha. -/
abbrev Q4 := ℚ × ℚ × ℚ × ℚ

/-- The RGB channels of a 4-channel image (X[:, :, :3]). -/
def rgbPart (X : List (List Q4)) : List (List Q3) :=
  X.map (fun row => row.map (fun p => (p.1, p.2.1, p.2.2.1)))

/-- Pyx.BGM_RESIZE. -/
def BGM_RESIZE : Nat := 256

/-- The sample Pyx.fit hands to the clustering model for an image with an alpha
channel, statement by statement: dilate, flatten, filter on the alpha
threshold, reshape — all of which the final statement overwrites with the
resize of the RGB channels of the original image.  (The following to-float and
SCALE_RGB steps consume only this value.) -/
def fitSampleAlpha (dilateF : List (List Q4) → List (List Q4))
    (resizeF : List (List Q3) → Nat × Nat → List (List Q3))
    (alpha : ℚ) (X : List (List Q4)) : List (List Q3) :=
  let h := X.length
  let w := (X.headD []).length
  let X1 := (dilateF X).flatten
  let X2 := X1.filter (fun p => decide (alpha ≤ p.2.2.2))
  let X3 := [X2]
  resizeF (rgbPart X) (1, min h BGM_RESIZE * min w BGM_RESIZE)

/-- Row width of the RGB part equals the row width of the image. -/
theorem rgbPart_rowlen (X : List (List Q4)) :
    ((rgbPart X).headD []).length = (X.headD []).length := by
  cases X <;> simp [rgbPart]

/-- C10: the sample the clustering model is fitted on is exactly the resized
RGB content of the full image — the alpha-filtered intermediate is dead — and
therefore two 4-channel images with identical RGB channels produce identical
fit samples no matter how their alpha channels differ, for every external
dilation and resize implementation and every alpha threshold. -/
theorem claim10_fit_sample_ignores_alpha
    (dilateF : List (List Q4) → List (List Q4))
    (resizeF : List (List Q3) → Nat × Nat → List (List Q3))
    (alpha : ℚ) (X Y : List (List Q4)) :
    fitSampleAlpha dilateF resizeF alpha X =
      resizeF (rgbPart X)
        (1, min X.length BGM_RESIZE * min (X.headD []).length BGM_RESIZE) ∧
    (rgbPart X = rgbPart Y →
      fitSampleAlpha dilateF resizeF alpha X =
        fitSampleAlpha dilateF resizeF alpha Y) := by
  constructor
  · rfl
  · intro hxy
    have hlen : X.length = Y.length := by
      have := congrArg List.length hxy
      simpa [rgbPart] using this
    have hrow : (X.headD []).length = (Y.headD []).length := by
      have h1 := rgbPart_rowlen X
      have h2 := rgbPart_rowlen Y
      rw [hxy] at h1
      omega
    show resizeF (rgbPart X) _ = resizeF (rgbPart Y) _
    rw [hxy, hlen, hrow]

/-- Witness for C10: two 1 x 1 images, one solid and one fully transparent,
with the same RGB content, give the same fit sample. -/
theorem claim10_fit_sample_ignores_alpha_witness :
    rgbPart [[((0 : ℚ), (0 : ℚ), (0 : ℚ), (1 : ℚ))]] =
      rgbPart [[((0 : ℚ), (0 : ℚ), (0 : ℚ), (0 : ℚ))]] ∧
    fitSampleAlpha id (fun img _ => img) (3 / 5)
        [[((0 : ℚ), (0 : ℚ), (0 : ℚ), (1 : ℚ))]] =
      fitSampleAlpha id (fun img _ => img) (3 / 5)
        [[((0 : ℚ), (0 : ℚ), (0 : ℚ), (0 : ℚ))]] :=
  ⟨rfl,
    (claim10_fit_sample_ignores_alpha id (fun img _ => img) (3 / 5)
      [[((0 : ℚ), (0 : ℚ), (0 : ℚ), (1 : ℚ))]]
      [[((0 : ℚ), (0 : ℚ), (0 : ℚ), (0 : ℚ))]]).2 rfl⟩

end Pyxelate
